import Mathlib

/-!
Shallow embedding of the video segment extraction and scene-boundary
detection engine in src/tools/video/cut_video.py.

Numeric values (times in seconds, durations, frame rates, percentages,
frame-difference metrics) are modelled as rationals: the Python source
computes with floats, and every property checked here concerns ordering,
clamping and exact arithmetic identities, which floats and rationals
share on the inputs considered.

File-system effects (the files written by write_videofile) are modelled
as an explicit log of output paths; exceptions raised by the underlying
codec library are modelled as abstract failure flags or Option-valued
sampling functions.
-/

set_option autoImplicit false

namespace CutVideo

/-- The CutMode enum of cut_video.py (values time, frame, percentage, scene). -/
inductive CutMode where
  | time
  | frame
  | percentage
  | scene
deriving DecidableEq, Repr

/-- The CutSegment dataclass: start, end, mode, optional label.
The Python field named end is called stop here because end is a Lean keyword. -/
structure CutSegment where
  start : ℚ
  stop : ℚ
  mode : CutMode
  label : Option String
deriving DecidableEq, Repr

/-- The fields of the video-info dict produced by VideoCutter._get_video_info
that the cutting path reads: duration and fps.  fps is optional (moviepy may
not expose a frame rate); the unused size/total_frames fields are omitted. -/
structure VideoInfo where
  duration : ℚ
  fps : Option ℚ
deriving DecidableEq, Repr

/-- Errors raised inside VideoCutter._convert_segment_to_time
(Python ValueError exceptions). -/
inductive ConvErr where
  | missingFrameRate
  | unsupportedMode (m : CutMode)
deriving DecidableEq, Repr

/-- Error results of the per-segment cutting path.  The constructor arguments
record exactly the data interpolated into the corresponding Python error
message: invalidSegment carries the clamped start and end times (the message
Invalid segment: start (..) >= end (..) has no segment index); segmentError
carries the index (the message Error cutting segment i: .. wraps exceptions
raised during conversion). -/
inductive CutError where
  | noSegments
  | invalidSegment (startTime endTime : ℚ)
  | segmentError (index : ℕ) (e : ConvErr)
deriving DecidableEq, Repr

/-- VideoCutter._convert_segment_to_time: dispatch on segment.mode.
Frame mode requires a present, non-zero fps (Python if not fps: raise);
percentage mode computes (value / 100.0) * duration; any other mode raises
Unsupported cut mode. -/
def convertSegmentToTime (s : CutSegment) (vi : VideoInfo) : Except ConvErr (ℚ × ℚ) :=
  match s.mode with
  | .time => .ok (s.start, s.stop)
  | .frame =>
    match vi.fps with
    | none => .error .missingFrameRate
    | some fps =>
      if fps = 0 then .error .missingFrameRate
      else .ok (s.start / fps, s.stop / fps)
  | .percentage => .ok (s.start / 100 * vi.duration, s.stop / 100 * vi.duration)
  | .scene => .error (.unsupportedMode .scene)

/-- A base output path, already split the way Python pathlib splits it:
parent directory, stem and suffix (extension). -/
structure BasePath where
  parent : String
  stem : String
  suffix : String
deriving DecidableEq, Repr

/-- Zero-padded 3-digit decimal rendering of a natural number, the Python
format spec 03d used for the generated segment number. -/
def pad3 (n : ℕ) : String :=
  let s := Nat.repr n
  if s.length ≥ 3 then s else String.mk (List.replicate (3 - s.length) '0') ++ s

/-- VideoCutter._generate_segment_output_path: stem_label.suffix when a
(truthy) label is present, else stem_segment_NNN.suffix where NNN is the
0-based loop index formatted 03d.  Python if label: is false for both None
and the empty string. -/
def generateSegmentOutputPath (base : BasePath) (index : ℕ) (label : Option String) : String :=
  let filename :=
    match label with
    | some l =>
      if l = "" then base.stem ++ "_segment_" ++ pad3 index ++ base.suffix
      else base.stem ++ "_" ++ l ++ base.suffix
    | none => base.stem ++ "_segment_" ++ pad3 index ++ base.suffix
  base.parent ++ "/" ++ filename

/-- VideoCutter._cut_single_segment, up to the file write: convert the
segment, clamp start up to 0 and end down to the duration, reject when
start >= end after clamping, and in non-merge mode synthesize the output
path (the Python code then writes the file at that path immediately).
Returns the resolved interval together with the written path, if any. -/
def cutSingleSegment (s : CutSegment) (vi : VideoInfo) (segmentIndex : ℕ)
    (baseOutputPath : BasePath) (mergeSegments : Bool) :
    Except CutError ((ℚ × ℚ) × Option String) :=
  match convertSegmentToTime s vi with
  | .error e => .error (.segmentError segmentIndex e)
  | .ok (st, en) =>
    let startTime := if st < 0 then 0 else st
    let endTime := if en > vi.duration then vi.duration else en
    if startTime ≥ endTime then .error (.invalidSegment startTime endTime)
    else if mergeSegments then .ok ((startTime, endTime), none)
    else .ok ((startTime, endTime),
      some (generateSegmentOutputPath baseOutputPath segmentIndex s.label))

/-- Conversion followed by clamping only (no validity check): the value pair
the Python code holds right before its start >= end test. -/
def clampResolve (s : CutSegment) (vi : VideoInfo) : Except ConvErr (ℚ × ℚ) :=
  match convertSegmentToTime s vi with
  | .error e => .error e
  | .ok (st, en) =>
    .ok ((if st < 0 then 0 else st), (if en > vi.duration then vi.duration else en))

/-- The segment loop of VideoCutter.cut_video, started at loop index i.
First component: the log of files written so far (one write per successful
segment in non-merge mode, none in merge mode).  Second component: the
error that aborted the loop, or the resolved intervals and output paths in
input order.  On error the loop stops at once; files written for earlier
segments remain in the log. -/
def runCutSegments (vi : VideoInfo) (base : BasePath) (mergeSegments : Bool) :
    List CutSegment → ℕ → List String × Except CutError (List (ℚ × ℚ) × List String)
  | [], _ => ([], .ok ([], []))
  | s :: rest, i =>
    match cutSingleSegment s vi i base mergeSegments with
    | .error e => ([], .error e)
    | .ok (iv, pathOpt) =>
      let out := runCutSegments vi base mergeSegments rest (i + 1)
      (pathOpt.toList ++ out.1,
        match out.2 with
        | .error e => .error e
        | .ok (ivs, paths) => .ok (iv :: ivs, pathOpt.toList ++ paths))

/-- VideoCutter.cut_video: validation rejects an empty segment list
(No segments provided), then the segments are processed strictly in input
order by the loop above. -/
def cutVideoModel (segs : List CutSegment) (vi : VideoInfo) (base : BasePath)
    (mergeSegments : Bool) :
    List String × Except CutError (List (ℚ × ℚ) × List String) :=
  if segs.isEmpty then ([], .error .noSegments)
  else runCutSegments vi base mergeSegments segs 0

/-- The list of output paths the non-merge loop writes for a run of
consecutive successful segments, the first one carrying loop index i. -/
def labelPaths (base : BasePath) (i : ℕ) : List CutSegment → List String
  | [] => []
  | s :: rest => generateSegmentOutputPath base i s.label :: labelPaths base (i + 1) rest

/-- ASCII lower-casing of one character, the effect of Python str.lower on
the ASCII mode strings handled here. -/
def pyLowerChar (c : Char) : Char :=
  if 65 ≤ c.toNat ∧ c.toNat ≤ 90 then Char.ofNat (c.toNat + 32) else c

/-- ASCII lower-casing of a string (Python cut_mode.lower on ASCII input). -/
def pyLower (s : String) : String := String.mk (s.data.map pyLowerChar)

/-- The string-to-mode validation at the top of the module-level cut_video
function: CutMode(cut_mode.lower()), an enum lookup by value that accepts
every CutMode value, with a ValueError (Invalid cut mode .. Use time, frame,
or percentage) for any other string. -/
def parseCutMode (cutMode : String) : Except String CutMode :=
  let s := pyLower cutMode
  if s = "time" then .ok .time
  else if s = "frame" then .ok .frame
  else if s = "percentage" then .ok .percentage
  else if s = "scene" then .ok .scene
  else .error ("Invalid cut mode: " ++ cutMode)

/-- The observable operations performed by VideoCutter._merge_segments on the
moviepy library: the concatenate_videoclips call, the write_videofile call,
closing one input clip (by its position in the clip list), and closing the
concatenated clip. -/
inductive MergeEvent where
  | concatCall
  | writeCall
  | closeClip (i : ℕ)
  | closeFinal
deriving DecidableEq, Repr

/-- VideoCutter._merge_segments as an event trace over n input clips.
concatRaises / writeRaises say whether the concatenate or write call raises;
the except handler returns an error dict without performing any close.
Result: the ordered trace of library calls and whether the merge succeeded.
The empty-clip-list check (No clips to merge) fails before any call. -/
def mergeSegmentsTrace (n : ℕ) (concatRaises writeRaises : Bool) :
    List MergeEvent × Bool :=
  if n = 0 then ([], false)
  else if concatRaises then ([.concatCall], false)
  else if writeRaises then ([.concatCall, .writeCall], false)
  else ([.concatCall, .writeCall] ++ (List.range n).map .closeClip ++ [.closeFinal], true)

/-- The scene-boundary condition of the sampling loop: a previous frame
exists, the difference metric exceeds the threshold, and the elapsed time
since the last boundary is at least the minimum scene length. -/
def boundaryFlag {F : Type} (diff : F → F → ℚ) (threshold minSceneLength : ℚ)
    (current sceneStart : ℚ) (prevFrame : Option F) (frame : F) : Bool :=
  match prevFrame with
  | some p => decide (diff p frame > threshold) &&
      decide (current - sceneStart ≥ minSceneLength)
  | none => false

/-- The scene-sampling while loop of cut_video_by_scenes, parametric in the
frame type F, the sampling function (none models a get_frame call that
raises, which the except handler skips) and the frame-difference metric
(np.mean of np.abs of the frame difference in the source).  State carried
exactly as in the source: current sample time, previous successfully sampled
frame, start time of the open scene, list of closed scenes.  Returns the
final scenes list and scene_start, plus the number of loop iterations
executed.  Every iteration, on both the success and the exception path,
advances current by the fixed 1-second sample interval. -/
def detectLoop {F : Type} (sample : ℚ → Option F) (diff : F → F → ℚ)
    (duration threshold minSceneLength : ℚ)
    (current : ℚ) (prevFrame : Option F) (sceneStart : ℚ)
    (scenes : List (ℚ × ℚ)) : List (ℚ × ℚ) × ℚ × ℕ :=
  if h : current < duration then
    match sample current with
    | none =>
      let r := detectLoop sample diff duration threshold minSceneLength
        (current + 1) prevFrame sceneStart scenes
      (r.1, r.2.1, r.2.2 + 1)
    | some frame =>
      let boundary : Bool :=
        boundaryFlag diff threshold minSceneLength current sceneStart prevFrame frame
      let scenes2 := if boundary then scenes ++ [(sceneStart, current)] else scenes
      let sceneStart2 := if boundary then current else sceneStart
      let r := detectLoop sample diff duration threshold minSceneLength
        (current + 1) (some frame) sceneStart2 scenes2
      (r.1, r.2.1, r.2.2 + 1)
  else (scenes, sceneStart, 0)
termination_by (⌈duration - current⌉).toNat
decreasing_by
  all_goals
    have h1 : (0 : ℚ) < duration - current := by linarith
    have h2 : (0 : ℤ) < ⌈duration - current⌉ := Int.ceil_pos.mpr h1
    have h3 : ⌈duration - (current + 1)⌉ = ⌈duration - current⌉ - 1 := by
      rw [show duration - (current + 1) = (duration - current) - 1 by ring]
      exact_mod_cast Int.ceil_sub_one (duration - current)
    omega

/-- cut_video_by_scenes, detection part: run the sampling loop from t = 0
with no previous frame and scene_start = 0, then append the final scene
(scene_start, duration) when scene_start < duration. -/
def detectScenes {F : Type} (sample : ℚ → Option F) (diff : F → F → ℚ)
    (duration threshold minSceneLength : ℚ) : List (ℚ × ℚ) :=
  let r := detectLoop sample diff duration threshold minSceneLength 0 none 0 []
  if r.2.1 < duration then r.1 ++ [(r.2.1, duration)] else r.1

/-- Python list slicing l[:m] for a possibly negative bound m
(a negative m counts from the end; a bound below -len yields the empty
list, matching the truncation of Nat subtraction). -/
def pySliceTake {α : Type} (m : ℤ) (l : List α) : List α :=
  if 0 ≤ m then l.take m.toNat else l.take (l.length - (-m).toNat)

/-- The max_scenes cap of cut_video_by_scenes: if max_scenes and
len(scenes) > max_scenes, keep scenes[:max_scenes].  Python truthiness makes
both None and 0 skip the cap entirely. -/
def truncateScenes (maxScenes : Option ℤ) (scenes : List (ℚ × ℚ)) : List (ℚ × ℚ) :=
  match maxScenes with
  | none => scenes
  | some m =>
    if m ≠ 0 ∧ (scenes.length : ℤ) > m then pySliceTake m scenes else scenes

/-- Conversion of detected (start, end) scenes to CutSegments in
cut_video_by_scenes: Time mode, label scene_I with a 1-based unpadded
index. -/
def sceneSegments (scenes : List (ℚ × ℚ)) : List CutSegment :=
  scenes.mapIdx (fun i se => ⟨se.1, se.2, .time, some ("scene_" ++ Nat.repr (i + 1))⟩)

/-! Helper lemmas shared by the claim theorems. -/

/-- cutSingleSegment phrased through clampResolve: convert-and-clamp first,
then the start >= end test, then the merge/non-merge result shape. -/
theorem cutSingleSegment_eq_clampResolve (s : CutSegment) (vi : VideoInfo) (i : ℕ)
    (base : BasePath) (mg : Bool) :
    cutSingleSegment s vi i base mg =
      match clampResolve s vi with
      | .error e => .error (.segmentError i e)
      | .ok (a, b) =>
        if a ≥ b then .error (.invalidSegment a b)
        else .ok ((a, b),
          if mg then none else some (generateSegmentOutputPath base i s.label)) := by
  unfold cutSingleSegment clampResolve
  cases h : convertSegmentToTime s vi with
  | error e => rfl
  | ok p =>
    obtain ⟨st, en⟩ := p
    by_cases hge :
        (if st < 0 then 0 else st) ≥ (if en > vi.duration then vi.duration else en)
    · simp only [hge, if_true, ite_true]
    · simp only [hge, if_false, ite_false]
      cases mg <;> rfl

/-- The clamped pair is bounded below by 0 and above by the duration. -/
theorem clampResolve_bounds (s : CutSegment) (vi : VideoInfo) (a b : ℚ)
    (h : clampResolve s vi = .ok (a, b)) : 0 ≤ a ∧ b ≤ vi.duration := by
  unfold clampResolve at h
  cases hc : convertSegmentToTime s vi with
  | error e => rw [hc] at h; exact absurd h (by simp)
  | ok p =>
    obtain ⟨st, en⟩ := p
    rw [hc] at h
    simp only [Except.ok.injEq, Prod.mk.injEq] at h
    obtain ⟨ha, hb⟩ := h
    constructor
    · rw [← ha]; split <;> linarith
    · rw [← hb]; split <;> linarith

/-- Loop-exit equation: once current has reached the duration the loop stops,
returning the accumulated scenes and the open scene start. -/
theorem detectLoop_exit {F : Type} (sample : ℚ → Option F) (diff : F → F → ℚ)
    (duration threshold minSceneLength : ℚ) (current : ℚ) (prevFrame : Option F)
    (sceneStart : ℚ) (scenes : List (ℚ × ℚ)) (h : ¬ current < duration) :
    detectLoop sample diff duration threshold minSceneLength current prevFrame sceneStart scenes
      = (scenes, sceneStart, 0) := by
  rw [detectLoop.eq_def]
  simp [h]

/-- Loop-step equation for a failed sample: the sample is dropped and the
time advances by the 1-second interval. -/
theorem detectLoop_none {F : Type} (sample : ℚ → Option F) (diff : F → F → ℚ)
    (duration threshold minSceneLength : ℚ) (current : ℚ) (prevFrame : Option F)
    (sceneStart : ℚ) (scenes : List (ℚ × ℚ)) (h : current < duration)
    (hs : sample current = none) :
    detectLoop sample diff duration threshold minSceneLength current prevFrame sceneStart scenes
      = ((detectLoop sample diff duration threshold minSceneLength (current + 1)
            prevFrame sceneStart scenes).1,
         (detectLoop sample diff duration threshold minSceneLength (current + 1)
            prevFrame sceneStart scenes).2.1,
         (detectLoop sample diff duration threshold minSceneLength (current + 1)
            prevFrame sceneStart scenes).2.2 + 1) := by
  rw [detectLoop.eq_def]
  simp [h, hs]


/-- Loop-step equation for a successful sample when the boundary condition
holds: the open scene is closed at the current sample time and a new scene
is opened there. -/
theorem detectLoop_some_true {F : Type} (sample : ℚ → Option F) (diff : F → F → ℚ)
    (duration threshold minSceneLength : ℚ) (current : ℚ) (prevFrame : Option F)
    (sceneStart : ℚ) (scenes : List (ℚ × ℚ)) (frame : F) (h : current < duration)
    (hs : sample current = some frame)
    (hb : boundaryFlag diff threshold minSceneLength current sceneStart prevFrame frame
      = true) :
    detectLoop sample diff duration threshold minSceneLength current prevFrame sceneStart scenes
      = ((detectLoop sample diff duration threshold minSceneLength (current + 1)
            (some frame) current (scenes ++ [(sceneStart, current)])).1,
         (detectLoop sample diff duration threshold minSceneLength (current + 1)
            (some frame) current (scenes ++ [(sceneStart, current)])).2.1,
         (detectLoop sample diff duration threshold minSceneLength (current + 1)
            (some frame) current (scenes ++ [(sceneStart, current)])).2.2 + 1) := by
  rw [detectLoop.eq_def]
  simp [h, hs, hb]

/-- Loop-step equation for a successful sample when the boundary condition
does not hold: only the previous frame and the sample time move. -/
theorem detectLoop_some_false {F : Type} (sample : ℚ → Option F) (diff : F → F → ℚ)
    (duration threshold minSceneLength : ℚ) (current : ℚ) (prevFrame : Option F)
    (sceneStart : ℚ) (scenes : List (ℚ × ℚ)) (frame : F) (h : current < duration)
    (hs : sample current = some frame)
    (hb : boundaryFlag diff threshold minSceneLength current sceneStart prevFrame frame
      = false) :
    detectLoop sample diff duration threshold minSceneLength current prevFrame sceneStart scenes
      = ((detectLoop sample diff duration threshold minSceneLength (current + 1)
            (some frame) sceneStart scenes).1,
         (detectLoop sample diff duration threshold minSceneLength (current + 1)
            (some frame) sceneStart scenes).2.1,
         (detectLoop sample diff duration threshold minSceneLength (current + 1)
            (some frame) sceneStart scenes).2.2 + 1) := by
  rw [detectLoop.eq_def]
  simp [h, hs, hb]

/-- One loop iteration decreases the ceiling measure by exactly one. -/
theorem ceil_toNat_succ (duration current : ℚ) (h : current < duration) :
    (⌈duration - (current + 1)⌉).toNat + 1 = (⌈duration - current⌉).toNat := by
  have h2 : (0 : ℤ) < ⌈duration - current⌉ := Int.ceil_pos.mpr (by linarith)
  have h3 : ⌈duration - (current + 1)⌉ = ⌈duration - current⌉ - 1 := by
    rw [show duration - (current + 1) = (duration - current) - 1 by ring]
    exact_mod_cast Int.ceil_sub_one (duration - current)
  omega

/-- The loop only appends to the scenes list, and the open scene start is
unchanged whenever nothing was appended. -/
theorem detectLoop_scenes_monotone {F : Type} (sample : ℚ → Option F) (diff : F → F → ℚ)
    (duration threshold minSceneLength : ℚ) (current : ℚ) (prevFrame : Option F)
    (sceneStart : ℚ) (scenes : List (ℚ × ℚ)) :
    ∃ extra,
      (detectLoop sample diff duration threshold minSceneLength current prevFrame
          sceneStart scenes).1 = scenes ++ extra ∧
      (extra = [] →
        (detectLoop sample diff duration threshold minSceneLength current prevFrame
            sceneStart scenes).2.1 = sceneStart) := by
  suffices H : ∀ (n : ℕ) (current : ℚ) (prevFrame : Option F) (sceneStart : ℚ)
      (scenes : List (ℚ × ℚ)), (⌈duration - current⌉).toNat = n →
      ∃ extra,
        (detectLoop sample diff duration threshold minSceneLength current prevFrame
            sceneStart scenes).1 = scenes ++ extra ∧
        (extra = [] →
          (detectLoop sample diff duration threshold minSceneLength current prevFrame
              sceneStart scenes).2.1 = sceneStart) by
    exact H _ current prevFrame sceneStart scenes rfl
  intro n
  induction n with
  | zero =>
    intro current prevFrame sceneStart scenes hm
    have hnd : ¬ current < duration := by
      intro hlt
      have h2 : (0 : ℤ) < ⌈duration - current⌉ := Int.ceil_pos.mpr (by linarith)
      omega
    rw [detectLoop_exit sample diff duration threshold minSceneLength current prevFrame
      sceneStart scenes hnd]
    exact ⟨[], by simp, fun _ => rfl⟩
  | succ n ih =>
    intro current prevFrame sceneStart scenes hm
    by_cases hlt : current < duration
    · have hmeas : (⌈duration - (current + 1)⌉).toNat = n := by
        have := ceil_toNat_succ duration current hlt
        omega
      cases hs : sample current with
      | none =>
        rw [detectLoop_none sample diff duration threshold minSceneLength current prevFrame
          sceneStart scenes hlt hs]
        exact ih (current + 1) prevFrame sceneStart scenes hmeas
      | some frame =>
        cases hb : boundaryFlag diff threshold minSceneLength current sceneStart
            prevFrame frame with
        | true =>
          rw [detectLoop_some_true sample diff duration threshold minSceneLength current
            prevFrame sceneStart scenes frame hlt hs hb]
          obtain ⟨e2, h1, _⟩ := ih (current + 1) (some frame) current
            (scenes ++ [(sceneStart, current)]) hmeas
          refine ⟨(sceneStart, current) :: e2, ?_, ?_⟩
          · rw [h1]; simp
          · intro he; simp at he
        | false =>
          rw [detectLoop_some_false sample diff duration threshold minSceneLength current
            prevFrame sceneStart scenes frame hlt hs hb]
          exact ih (current + 1) (some frame) sceneStart scenes hmeas
    · rw [detectLoop_exit sample diff duration threshold minSceneLength current prevFrame
        sceneStart scenes hlt]
      exact ⟨[], by simp, fun _ => rfl⟩

/-- When the difference metric never exceeds the threshold, the loop records
no boundary: the scenes list and the open scene start come back unchanged. -/
theorem detectLoop_no_boundary {F : Type} (sample : ℚ → Option F) (diff : F → F → ℚ)
    (duration threshold minSceneLength : ℚ) (hd : ∀ p f, diff p f ≤ threshold)
    (current : ℚ) (prevFrame : Option F) (sceneStart : ℚ) (scenes : List (ℚ × ℚ)) :
    (detectLoop sample diff duration threshold minSceneLength current prevFrame
        sceneStart scenes).1 = scenes ∧
    (detectLoop sample diff duration threshold minSceneLength current prevFrame
        sceneStart scenes).2.1 = sceneStart := by
  suffices H : ∀ (n : ℕ) (current : ℚ) (prevFrame : Option F) (sceneStart : ℚ)
      (scenes : List (ℚ × ℚ)), (⌈duration - current⌉).toNat = n →
      (detectLoop sample diff duration threshold minSceneLength current prevFrame
          sceneStart scenes).1 = scenes ∧
      (detectLoop sample diff duration threshold minSceneLength current prevFrame
          sceneStart scenes).2.1 = sceneStart by
    exact H _ current prevFrame sceneStart scenes rfl
  intro n
  induction n with
  | zero =>
    intro current prevFrame sceneStart scenes hm
    have hnd : ¬ current < duration := by
      intro hlt
      have h2 : (0 : ℤ) < ⌈duration - current⌉ := Int.ceil_pos.mpr (by linarith)
      omega
    rw [detectLoop_exit sample diff duration threshold minSceneLength current prevFrame
      sceneStart scenes hnd]
    exact ⟨rfl, rfl⟩
  | succ n ih =>
    intro current prevFrame sceneStart scenes hm
    by_cases hlt : current < duration
    · have hmeas : (⌈duration - (current + 1)⌉).toNat = n := by
        have := ceil_toNat_succ duration current hlt
        omega
      cases hs : sample current with
      | none =>
        rw [detectLoop_none sample diff duration threshold minSceneLength current prevFrame
          sceneStart scenes hlt hs]
        exact ih (current + 1) prevFrame sceneStart scenes hmeas
      | some frame =>
        have hb : boundaryFlag diff threshold minSceneLength current sceneStart
            prevFrame frame = false := by
          unfold boundaryFlag
          cases prevFrame with
          | none => rfl
          | some p =>
            simp only [Bool.and_eq_false_iff]
            exact Or.inl (decide_eq_false (not_lt.mpr (hd p frame)))
        rw [detectLoop_some_false sample diff duration threshold minSceneLength current
          prevFrame sceneStart scenes frame hlt hs hb]
        exact ih (current + 1) (some frame) sceneStart scenes hmeas
    · rw [detectLoop_exit sample diff duration threshold minSceneLength current prevFrame
        sceneStart scenes hlt]
      exact ⟨rfl, rfl⟩

/-- Iteration-count bound: starting at time current, the loop executes at
most ceil(duration - current) iterations (each iteration advances the sample
time by the fixed 1-second interval). -/
theorem detectLoop_count_le {F : Type} (sample : ℚ → Option F) (diff : F → F → ℚ)
    (duration threshold minSceneLength : ℚ) (current : ℚ) (prevFrame : Option F)
    (sceneStart : ℚ) (scenes : List (ℚ × ℚ)) :
    (detectLoop sample diff duration threshold minSceneLength current prevFrame
        sceneStart scenes).2.2 ≤ (⌈duration - current⌉).toNat := by
  suffices H : ∀ (n : ℕ) (current : ℚ) (prevFrame : Option F) (sceneStart : ℚ)
      (scenes : List (ℚ × ℚ)), (⌈duration - current⌉).toNat = n →
      (detectLoop sample diff duration threshold minSceneLength current prevFrame
          sceneStart scenes).2.2 ≤ n by
    exact H _ current prevFrame sceneStart scenes rfl
  intro n
  induction n with
  | zero =>
    intro current prevFrame sceneStart scenes hm
    have hnd : ¬ current < duration := by
      intro hlt
      have h2 : (0 : ℤ) < ⌈duration - current⌉ := Int.ceil_pos.mpr (by linarith)
      omega
    rw [detectLoop_exit sample diff duration threshold minSceneLength current prevFrame
      sceneStart scenes hnd]
  | succ n ih =>
    intro current prevFrame sceneStart scenes hm
    by_cases hlt : current < duration
    · have hmeas : (⌈duration - (current + 1)⌉).toNat = n := by
        have := ceil_toNat_succ duration current hlt
        omega
      cases hs : sample current with
      | none =>
        rw [detectLoop_none sample diff duration threshold minSceneLength current prevFrame
          sceneStart scenes hlt hs]
        have hle := ih (current + 1) prevFrame sceneStart scenes hmeas
        dsimp only
        omega
      | some frame =>
        cases hb : boundaryFlag diff threshold minSceneLength current sceneStart
            prevFrame frame with
        | true =>
          rw [detectLoop_some_true sample diff duration threshold minSceneLength current
            prevFrame sceneStart scenes frame hlt hs hb]
          have hle := ih (current + 1) (some frame) current
            (scenes ++ [(sceneStart, current)]) hmeas
          dsimp only
          omega
        | false =>
          rw [detectLoop_some_false sample diff duration threshold minSceneLength current
            prevFrame sceneStart scenes frame hlt hs hb]
          have hle := ih (current + 1) (some frame) sceneStart scenes hmeas
          dsimp only
          omega
    · rw [detectLoop_exit sample diff duration threshold minSceneLength current prevFrame
        sceneStart scenes hlt]
      exact Nat.zero_le _



/-- A successful non-merge cut of a single segment always returns the
synthesized output path for its loop index. -/
theorem cutSingleSegment_ok_path (s : CutSegment) (vi : VideoInfo) (i : ℕ)
    (base : BasePath) (iv : ℚ × ℚ) (po : Option String)
    (h : cutSingleSegment s vi i base false = .ok (iv, po)) :
    clampResolve s vi = .ok iv ∧ iv.1 < iv.2 ∧
      po = some (generateSegmentOutputPath base i s.label) := by
  rw [cutSingleSegment_eq_clampResolve] at h
  cases hcr : clampResolve s vi with
  | error e => rw [hcr] at h; simp at h
  | ok ab =>
    obtain ⟨a, b⟩ := ab
    rw [hcr] at h
    dsimp only at h
    by_cases hge : a ≥ b
    · rw [if_pos hge] at h; simp at h
    · rw [if_neg hge] at h
      simp only [Bool.false_eq_true, if_false, Except.ok.injEq, Prod.mk.injEq] at h
      obtain ⟨hiv, hpo⟩ := h
      subst hiv
      exact ⟨rfl, not_le.mp hge, hpo.symm⟩

/-- The single-segment cut fails with the invalid-segment error exactly when
the clamped times satisfy start >= end; the error carries those times. -/
theorem cutSingleSegment_invalid (s : CutSegment) (vi : VideoInfo) (i : ℕ)
    (base : BasePath) (mg : Bool) (a b : ℚ)
    (hcr : clampResolve s vi = .ok (a, b)) (hge : a ≥ b) :
    cutSingleSegment s vi i base mg = .error (.invalidSegment a b) := by
  rw [cutSingleSegment_eq_clampResolve, hcr]
  simp [hge]

/-- A valid clamped segment cuts successfully, returning the clamped interval
and, in non-merge mode, the synthesized output path. -/
theorem cutSingleSegment_valid (s : CutSegment) (vi : VideoInfo) (i : ℕ)
    (base : BasePath) (a b : ℚ)
    (hcr : clampResolve s vi = .ok (a, b)) (hlt : a < b) :
    cutSingleSegment s vi i base false =
      .ok ((a, b), some (generateSegmentOutputPath base i s.label)) := by
  rw [cutSingleSegment_eq_clampResolve, hcr]
  simp [not_le.mpr hlt]

/-- Structure of a successful non-merge loop run: exactly one resolved
interval and one output path per input segment, each produced from the
segment at the same position with the matching loop index. -/
theorem runCutSegments_ok_pointwise (vi : VideoInfo) (base : BasePath) :
    ∀ (segs : List CutSegment) (i : ℕ) (ivs : List (ℚ × ℚ)) (paths : List String),
      (runCutSegments vi base false segs i).2 = .ok (ivs, paths) →
      ivs.length = segs.length ∧ paths.length = segs.length ∧
      ∀ k, (hk : k < segs.length) → ∃ iv p,
        ivs[k]? = some iv ∧ paths[k]? = some p ∧
        cutSingleSegment (segs.get ⟨k, hk⟩) vi (i + k) base false = .ok (iv, some p)
  | [], i, ivs, paths => by
    intro h
    simp only [runCutSegments, Except.ok.injEq, Prod.mk.injEq] at h
    obtain ⟨h1, h2⟩ := h
    subst h1; subst h2
    exact ⟨rfl, rfl, fun k hk => absurd hk (Nat.not_lt_zero k)⟩
  | s :: rest, i, ivs, paths => by
    intro h
    rw [runCutSegments] at h
    cases hc : cutSingleSegment s vi i base false with
    | error e => rw [hc] at h; simp at h
    | ok ivpo =>
      obtain ⟨iv, po⟩ := ivpo
      rw [hc] at h
      dsimp only at h
      cases hr : (runCutSegments vi base false rest (i + 1)).2 with
      | error e => rw [hr] at h; simp at h
      | ok ivspaths =>
        obtain ⟨ivs2, paths2⟩ := ivspaths
        rw [hr] at h
        simp only [Except.ok.injEq, Prod.mk.injEq] at h
        obtain ⟨hivs, hpaths⟩ := h
        obtain ⟨_, _, hpo⟩ := cutSingleSegment_ok_path s vi i base iv po hc
        subst hpo
        obtain ⟨l1, l2, hall⟩ := runCutSegments_ok_pointwise vi base rest (i + 1) ivs2 paths2 hr
        subst hivs; subst hpaths
        refine ⟨by simp [l1], by simp [l2], ?_⟩
        intro k hk
        cases k with
        | zero =>
          exact ⟨iv, generateSegmentOutputPath base i s.label, by simp, by simp,
            by simpa using hc⟩
        | succ k2 =>
          have hk2 : k2 < rest.length := by simpa using hk
          obtain ⟨iv2, p2, e1, e2, e3⟩ := hall k2 hk2
          refine ⟨iv2, p2, by simpa using e1, by simpa using e2, ?_⟩
          have hidx : i + 1 + k2 = i + (k2 + 1) := by omega
          rw [hidx] at e3
          simpa using e3

/-- Structure of a successful loop run in either output mode: exactly one
resolved interval per input segment, the k-th interval produced by cutting
the k-th input segment with the matching loop index. -/
theorem runCutSegments_ok_intervals (vi : VideoInfo) (base : BasePath) (mg : Bool) :
    ∀ (segs : List CutSegment) (i : ℕ) (ivs : List (ℚ × ℚ)) (paths : List String),
      (runCutSegments vi base mg segs i).2 = .ok (ivs, paths) →
      ivs.length = segs.length ∧
      ∀ k, (hk : k < segs.length) → ∃ iv po,
        ivs[k]? = some iv ∧
        cutSingleSegment (segs.get ⟨k, hk⟩) vi (i + k) base mg = .ok (iv, po)
  | [], i, ivs, paths => by
    intro h
    simp only [runCutSegments, Except.ok.injEq, Prod.mk.injEq] at h
    obtain ⟨h1, h2⟩ := h
    subst h1
    exact ⟨rfl, fun k hk => absurd hk (Nat.not_lt_zero k)⟩
  | s :: rest, i, ivs, paths => by
    intro h
    rw [runCutSegments] at h
    cases hc : cutSingleSegment s vi i base mg with
    | error e => rw [hc] at h; simp at h
    | ok ivpo =>
      obtain ⟨iv, po⟩ := ivpo
      rw [hc] at h
      dsimp only at h
      cases hr : (runCutSegments vi base mg rest (i + 1)).2 with
      | error e => rw [hr] at h; simp at h
      | ok ivspaths =>
        obtain ⟨ivs2, paths2⟩ := ivspaths
        rw [hr] at h
        simp only [Except.ok.injEq, Prod.mk.injEq] at h
        obtain ⟨hivs, hpaths⟩ := h
        obtain ⟨l1, hall⟩ := runCutSegments_ok_intervals vi base mg rest (i + 1) ivs2 paths2 hr
        subst hivs
        refine ⟨by simp [l1], ?_⟩
        intro k hk
        cases k with
        | zero => exact ⟨iv, po, by simp, by simpa using hc⟩
        | succ k2 =>
          have hk2 : k2 < rest.length := by simpa using hk
          obtain ⟨iv2, po2, e1, e3⟩ := hall k2 hk2
          refine ⟨iv2, po2, by simpa using e1, ?_⟩
          have hidx : i + 1 + k2 = i + (k2 + 1) := by omega
          rw [hidx] at e3
          simpa using e3

/-- A run whose first invalidly-clamped segment sits at position k fails with
the invalid-segment error carrying that segment's clamped times; the paths
written before the failure are exactly those of the first k segments. -/
theorem runCutSegments_first_invalid (vi : VideoInfo) (base : BasePath) :
    ∀ (segs : List CutSegment) (k : ℕ) (i : ℕ) (hk : k < segs.length) (a b : ℚ),
      clampResolve (segs.get ⟨k, hk⟩) vi = .ok (a, b) → a ≥ b →
      (∀ j, (hj : j < k) → ∃ c d,
        clampResolve (segs.get ⟨j, Nat.lt_trans hj hk⟩) vi = .ok (c, d) ∧ c < d) →
      runCutSegments vi base false segs i =
        (labelPaths base i (segs.take k), .error (.invalidSegment a b))
  | [], k, i, hk => by exact absurd hk (Nat.not_lt_zero k)
  | s :: rest, 0, i, hk => by
    intro a b hbad hge hgood
    rw [runCutSegments,
      cutSingleSegment_invalid s vi i base false a b (by simpa using hbad) hge]
    simp [labelPaths]
  | s :: rest, k2 + 1, i, hk => by
    intro a b hbad hge hgood
    obtain ⟨c, d, hcd, hlt⟩ := hgood 0 (Nat.succ_pos k2)
    rw [runCutSegments,
      cutSingleSegment_valid s vi i base c d (by simpa using hcd) hlt]
    have hk2 : k2 < rest.length := by simpa using hk
    have hirec := runCutSegments_first_invalid vi base rest k2 (i + 1) hk2 a b
      (by simpa using hbad) hge
      (fun j hj => by simpa using hgood (j + 1) (Nat.succ_lt_succ hj))
    dsimp only
    rw [hirec]
    simp [labelPaths]


/-! The claim theorems. -/

/-- Claim C4: every segment accepted by the per-segment cut satisfies
0 <= start < end <= duration after clamping; in particular a Percentage
segment whose end value exceeds 100 is clamped to the video duration and
succeeds rather than erroring. -/
theorem resolved_interval_clamping_invariant :
    (∀ (s : CutSegment) (vi : VideoInfo) (i : ℕ) (base : BasePath) (mg : Bool)
        (a b : ℚ) (po : Option String),
      cutSingleSegment s vi i base mg = .ok ((a, b), po) →
      0 ≤ a ∧ a < b ∧ b ≤ vi.duration) ∧
    (∀ (st en : ℚ) (l : Option String) (vi : VideoInfo) (i : ℕ) (base : BasePath),
      0 ≤ st → st < 100 → 100 < en → 0 < vi.duration →
      cutSingleSegment ⟨st, en, .percentage, l⟩ vi i base false =
        .ok ((st / 100 * vi.duration, vi.duration),
          some (generateSegmentOutputPath base i l))) := by
  constructor
  · intro s vi i base mg a b po h
    rw [cutSingleSegment_eq_clampResolve] at h
    cases hcr : clampResolve s vi with
    | error e => rw [hcr] at h; simp at h
    | ok cd =>
      obtain ⟨c, d⟩ := cd
      rw [hcr] at h
      dsimp only at h
      by_cases hge : c ≥ d
      · rw [if_pos hge] at h; simp at h
      · rw [if_neg hge] at h
        simp only [Except.ok.injEq, Prod.mk.injEq] at h
        obtain ⟨⟨hac, hbd⟩, _⟩ := h
        obtain ⟨h0, hdur⟩ := clampResolve_bounds s vi c d hcr
        subst hac
        subst hbd
        exact ⟨h0, not_le.mp hge, hdur⟩
  · intro st en l vi i base hst hst100 hen hdur
    have hconv : convertSegmentToTime ⟨st, en, .percentage, l⟩ vi =
        .ok (st / 100 * vi.duration, en / 100 * vi.duration) := rfl
    have h1 : ¬ st / 100 * vi.duration < 0 :=
      not_lt.mpr (mul_nonneg (div_nonneg hst (by norm_num)) hdur.le)
    have h2 : en / 100 * vi.duration > vi.duration := by
      have he1 : (1 : ℚ) < en / 100 := by
        rw [lt_div_iff (by norm_num : (0 : ℚ) < 100)]
        linarith
      calc vi.duration = 1 * vi.duration := (one_mul _).symm
        _ < en / 100 * vi.duration := mul_lt_mul_of_pos_right he1 hdur
    have h3 : ¬ st / 100 * vi.duration ≥ vi.duration := by
      have hs1 : st / 100 < 1 := by
        rw [div_lt_one (by norm_num : (0 : ℚ) < 100)]
        exact hst100
      have hmul := mul_lt_mul_of_pos_right hs1 hdur
      rw [one_mul] at hmul
      exact not_le.mpr hmul
    unfold cutSingleSegment
    rw [hconv]
    dsimp only
    rw [if_neg h1, if_pos h2, if_neg h3]
    simp

/-- Claim C4 witness: a Time-free concrete instance of both conjuncts:
percentage segment (25,75) of a 60-second video resolves to the accepted
interval (15,45), and percentage segment (0,150) clamps its end to 60. -/
theorem resolved_interval_clamping_invariant_witness :
    ((0 : ℚ) ≤ 10 ∧ (10 : ℚ) < 20 ∧ (20 : ℚ) ≤ (60 : ℚ)) ∧
    cutSingleSegment ⟨0, 150, .percentage, none⟩ ⟨60, some 30⟩ 0
        ⟨"out", "video", ".mp4"⟩ false =
      .ok ((0 / 100 * 60, 60),
        some (generateSegmentOutputPath ⟨"out", "video", ".mp4"⟩ 0 none)) :=
  ⟨resolved_interval_clamping_invariant.1 ⟨10, 20, .time, none⟩ ⟨60, some 30⟩ 0
      ⟨"out", "video", ".mp4"⟩ false 10 20
      (some (generateSegmentOutputPath ⟨"out", "video", ".mp4"⟩ 0 none)) (by rfl),
   resolved_interval_clamping_invariant.2 0 150 none ⟨60, some 30⟩ 0
     ⟨"out", "video", ".mp4"⟩ (by norm_num) (by norm_num) (by norm_num) (by norm_num)⟩

/-- Claim C5: Frame-coordinate conversion fails with the missing-frame-rate
error when fps is absent or zero, and the segment loop then aborts the whole
run at that segment with the error wrapped with the segment index; with a
present non-zero frame rate r, frame indices n resolve to exactly n / r
seconds. -/
theorem frame_mode_requires_frame_rate (s : CutSegment) (vi : VideoInfo)
    (hm : s.mode = .frame) :
    ((vi.fps = none ∨ vi.fps = some 0) →
      convertSegmentToTime s vi = .error .missingFrameRate ∧
      ∀ (rest : List CutSegment) (i : ℕ) (base : BasePath) (mg : Bool),
        runCutSegments vi base mg (s :: rest) i =
          ([], .error (.segmentError i .missingFrameRate))) ∧
    (∀ r : ℚ, vi.fps = some r → r ≠ 0 →
      convertSegmentToTime s vi = .ok (s.start / r, s.stop / r)) := by
  constructor
  · intro hfps
    have hconv : convertSegmentToTime s vi = .error .missingFrameRate := by
      unfold convertSegmentToTime
      rw [hm]
      rcases hfps with hf | hf <;> rw [hf] <;> simp
    refine ⟨hconv, ?_⟩
    intro rest i base mg
    have hc : cutSingleSegment s vi i base mg =
        .error (.segmentError i .missingFrameRate) := by
      unfold cutSingleSegment
      rw [hconv]
    rw [runCutSegments, hc]
  · intro r hr hr0
    unfold convertSegmentToTime
    rw [hm, hr]
    simp [hr0]

/-- Claim C5 witness: with no frame rate the conversion fails and the run
aborts; with 30 fps, frames 300 and 600 resolve to 10 and 20 seconds. -/
theorem frame_mode_requires_frame_rate_witness :
    (convertSegmentToTime ⟨300, 600, .frame, none⟩ ⟨60, none⟩ =
        .error .missingFrameRate ∧
      runCutSegments ⟨60, none⟩ ⟨"out", "video", ".mp4"⟩ false
          [⟨300, 600, .frame, none⟩] 0 =
        ([], .error (.segmentError 0 .missingFrameRate))) ∧
    convertSegmentToTime ⟨300, 600, .frame, none⟩ ⟨60, some 30⟩ = .ok (300 / 30, 600 / 30) :=
  ⟨⟨((frame_mode_requires_frame_rate ⟨300, 600, .frame, none⟩ ⟨60, none⟩ rfl).1
        (Or.inl rfl)).1,
    ((frame_mode_requires_frame_rate ⟨300, 600, .frame, none⟩ ⟨60, none⟩ rfl).1
        (Or.inl rfl)).2 [] 0 ⟨"out", "video", ".mp4"⟩ false⟩,
   (frame_mode_requires_frame_rate ⟨300, 600, .frame, none⟩ ⟨60, some 30⟩ rfl).2 30 rfl
     (by norm_num)⟩

/-- Claim C1 counterexample: the spec example itself (60-second video,
time-mode segments [10,20], [40,50], [70,80], non-merge): the job fails on
the third segment, whose clamped times are (70,60), but the files for the
two earlier valid segments have already been written, and the error carries
the clamped times, not the failing segment index. -/
theorem cut_video_invalid_segment_partial_writes :
    cutVideoModel [⟨10, 20, .time, none⟩, ⟨40, 50, .time, none⟩, ⟨70, 80, .time, none⟩]
        ⟨60, some 30⟩ ⟨"out", "video", ".mp4"⟩ false =
      (["out/video_segment_000.mp4", "out/video_segment_001.mp4"],
        .error (.invalidSegment 70 60)) ∧
    (["out/video_segment_000.mp4", "out/video_segment_001.mp4"] : List String) ≠ [] :=
  ⟨by rfl, by simp⟩

/-- Claim C1 amended: when the first invalidly-clamped segment sits at
position k (all earlier segments valid), the non-merge job aborts with the
invalid-segment error carrying that segment's clamped start and end times
(the segment index is not part of this error); segments after position k
are not processed, but the output files of the k earlier valid segments
have already been written when the job fails. -/
theorem cut_video_first_invalid_segment_aborts (segs : List CutSegment)
    (vi : VideoInfo) (base : BasePath) (k : ℕ) (hk : k < segs.length) (a b : ℚ)
    (hbad : clampResolve (segs.get ⟨k, hk⟩) vi = .ok (a, b)) (hge : a ≥ b)
    (hgood : ∀ j, (hj : j < k) → ∃ c d,
      clampResolve (segs.get ⟨j, Nat.lt_trans hj hk⟩) vi = .ok (c, d) ∧ c < d) :
    cutVideoModel segs vi base false =
      (labelPaths base 0 (segs.take k), .error (.invalidSegment a b)) := by
  have hne : ¬ segs.isEmpty = true := by
    cases segs with
    | nil => exact absurd hk (Nat.not_lt_zero k)
    | cons s rest => simp
  unfold cutVideoModel
  rw [if_neg hne]
  exact runCutSegments_first_invalid vi base segs k 0 hk a b hbad hge hgood

/-- Claim C1 amended, witness at the spec example: failure at index 2 with
clamped times (70,60) after the first two files were written. -/
theorem cut_video_first_invalid_segment_aborts_witness :
    cutVideoModel [⟨10, 20, .time, none⟩, ⟨40, 50, .time, none⟩, ⟨70, 80, .time, none⟩]
        ⟨60, some 30⟩ ⟨"out", "video", ".mp4"⟩ false =
      (labelPaths ⟨"out", "video", ".mp4"⟩ 0
          (([⟨10, 20, .time, none⟩, ⟨40, 50, .time, none⟩,
             ⟨70, 80, .time, none⟩] : List CutSegment).take 2),
        .error (.invalidSegment 70 60)) :=
  cut_video_first_invalid_segment_aborts
    [⟨10, 20, .time, none⟩, ⟨40, 50, .time, none⟩, ⟨70, 80, .time, none⟩]
    ⟨60, some 30⟩ ⟨"out", "video", ".mp4"⟩ 2 (by norm_num) 70 60 (by rfl) (by norm_num)
    (by
      intro j hj
      interval_cases j
      · exact ⟨10, 20, by rfl, by norm_num⟩
      · exact ⟨40, 50, by rfl, by norm_num⟩)

/-- Claim C2, evaluated at the failing input: two unlabeled time segments on
a 60-second video produce files numbered segment_000 and segment_001 (the
0-based loop index formatted 03d), not segment_001 and segment_002 as the
claim and the cut_video docstring example state; the first generated name
differs from the claimed one. -/
theorem unlabeled_segments_numbered_from_zero :
    cutVideoModel [⟨10, 20, .time, none⟩, ⟨30, 40, .time, none⟩] ⟨60, some 30⟩
        ⟨"out", "video", ".mp4"⟩ false =
      (["out/video_segment_000.mp4", "out/video_segment_001.mp4"],
        .ok ([(10, 20), (30, 40)],
          ["out/video_segment_000.mp4", "out/video_segment_001.mp4"])) ∧
    generateSegmentOutputPath ⟨"out", "video", ".mp4"⟩ 0 none ≠
      ("out/video_segment_001.mp4") :=
  ⟨by rfl, by decide⟩

/-- Claim C3 counterexample: merging one clip with a failing write call
performs no close at all: the clip handle is not released on the failure
path. -/
theorem merge_write_failure_skips_clip_close :
    mergeSegmentsTrace 1 false true = ([.concatCall, .writeCall], false) ∧
    MergeEvent.closeClip 0 ∉ (mergeSegmentsTrace 1 false true).1 :=
  ⟨rfl, by decide⟩

/-- Claim C3 amended: on the success path every input clip handle is closed
after the write; on the failure path (the concatenate or write call raises)
no input clip handle is closed at all. -/
theorem merge_closes_clips_only_on_success (n : ℕ) (cr wr : Bool) (hn : 0 < n) :
    ((cr = false ∧ wr = false) →
      (mergeSegmentsTrace n cr wr).2 = true ∧
      ∀ i, i < n → MergeEvent.closeClip i ∈ (mergeSegmentsTrace n cr wr).1) ∧
    ((cr = true ∨ wr = true) →
      (mergeSegmentsTrace n cr wr).2 = false ∧
      ∀ i, MergeEvent.closeClip i ∉ (mergeSegmentsTrace n cr wr).1) := by
  have hn0 : ¬ n = 0 := by omega
  constructor
  · rintro ⟨hcr, hwr⟩
    subst hcr
    subst hwr
    refine ⟨?_, ?_⟩
    · show (mergeSegmentsTrace n false false).2 = true
      unfold mergeSegmentsTrace
      rw [if_neg hn0]
      rfl
    · intro i hi
      have hmem : MergeEvent.closeClip i ∈
          ([MergeEvent.concatCall, MergeEvent.writeCall] ++
            (List.range n).map MergeEvent.closeClip ++ [MergeEvent.closeFinal]) :=
        List.mem_append.mpr (Or.inl (List.mem_append.mpr (Or.inr
          (List.mem_map_of_mem _ (List.mem_range.mpr hi)))))
      show MergeEvent.closeClip i ∈ (mergeSegmentsTrace n false false).1
      unfold mergeSegmentsTrace
      rw [if_neg hn0]
      exact hmem
  · intro hor
    cases cr with
    | true =>
      have ht : mergeSegmentsTrace n true wr = ([MergeEvent.concatCall], false) := by
        unfold mergeSegmentsTrace
        rw [if_neg hn0]
        rfl
      rw [ht]
      exact ⟨rfl, fun i => by simp⟩
    | false =>
      cases wr with
      | true =>
        have ht : mergeSegmentsTrace n false true =
            ([MergeEvent.concatCall, MergeEvent.writeCall], false) := by
          unfold mergeSegmentsTrace
          rw [if_neg hn0]
          rfl
        rw [ht]
        exact ⟨rfl, fun i => by simp⟩
      | false =>
        rcases hor with hx | hx <;> exact absurd hx (by simp)

/-- Claim C3 amended, witness: in a successful 2-clip merge the second clip
handle is closed. -/
theorem merge_closes_clips_only_on_success_witness :
    MergeEvent.closeClip 1 ∈ (mergeSegmentsTrace 2 false false).1 :=
  ((merge_closes_clips_only_on_success 2 false false (by norm_num)).1 ⟨rfl, rfl⟩).2 1
    (by norm_num)

/-- Claim C6: whenever the sampling loop records no boundary, scene
detection on a positive-duration video does not fail: it returns exactly
one Time-mode segment spanning the whole video. -/
theorem no_boundaries_yields_single_full_segment {F : Type} (sample : ℚ → Option F)
    (diff : F → F → ℚ) (duration threshold minSceneLength : ℚ)
    (hdur : 0 < duration)
    (hnob : (detectLoop sample diff duration threshold minSceneLength 0 none 0 []).1 = []) :
    sceneSegments (detectScenes sample diff duration threshold minSceneLength) =
      [⟨0, duration, .time, some ("scene_1")⟩] := by
  obtain ⟨extra, h1, h2⟩ := detectLoop_scenes_monotone sample diff duration threshold
    minSceneLength 0 none 0 []
  rw [List.nil_append] at h1
  have hext : extra = [] := by rw [← h1]; exact hnob
  have hss : (detectLoop sample diff duration threshold minSceneLength 0 none 0 []).2.1 = 0 :=
    h2 hext
  unfold detectScenes
  dsimp only
  rw [hss, hnob, if_pos hdur]
  rfl

/-- Claim C6 witness: a sampler that always succeeds with a constant frame
and a zero difference metric detects no boundary on a 3-second video, and
detection returns the single segment (0,3). -/
theorem no_boundaries_yields_single_full_segment_witness :
    sceneSegments (detectScenes (fun _ => some Unit.unit) (fun _ _ => (0 : ℚ)) 3 30 1) =
      [⟨0, 3, .time, some ("scene_1")⟩] :=
  no_boundaries_yields_single_full_segment (fun _ => some Unit.unit) (fun _ _ => 0) 3 30 1
    (by norm_num)
    ((detectLoop_no_boundary (fun _ => some Unit.unit) (fun _ _ => 0) 3 30 1
        (fun p f => by norm_num) 0 none 0 []).1)

/-- Claim C7 counterexample: max_scenes = 0 is set, two scenes exceed the
cap, yet the Python truthiness test skips the cap entirely and both scenes
are kept instead of the claimed first 0. -/
theorem max_scenes_zero_cap_ignored :
    truncateScenes (some 0) [(0, 1), (1, 2)] = [(0, 1), (1, 2)] ∧
    truncateScenes (some 0) [(0, 1), (1, 2)] ≠
      List.take (Int.toNat 0) [((0 : ℚ), (1 : ℚ)), (1, 2)] := by
  constructor
  · rfl
  · decide

/-- Claim C7 amended: whenever max_scenes is set to a positive value m and
detection produced more than m segments, the segment list is truncated to
exactly the first m segments in detection order. -/
theorem max_scenes_positive_truncates (m : ℤ) (scenes : List (ℚ × ℚ))
    (hm : 0 < m) (hlen : m < (scenes.length : ℤ)) :
    truncateScenes (some m) scenes = scenes.take m.toNat := by
  simp only [truncateScenes, pySliceTake]
  rw [if_pos ⟨by omega, by omega⟩, if_pos (by omega : (0 : ℤ) ≤ m)]

/-- Claim C7 amended, witness: cap 1 on two scenes keeps only the first. -/
theorem max_scenes_positive_truncates_witness :
    truncateScenes (some 1) [(0, 1), (1, 2)] =
      List.take (Int.toNat 1) [((0 : ℚ), (1 : ℚ)), (1, 2)] :=
  max_scenes_positive_truncates 1 [(0, 1), (1, 2)] (by norm_num) (by norm_num)

/-- Claim C8, evaluated at the failing input: the entry-point validation
CutMode(cut_mode.lower()) accepts the string scene (it is a value of the
CutMode enum), and the resolver then raises the supposedly unreachable
Unsupported-cut-mode error, aborting the run at segment 0. -/
theorem scene_mode_reaches_unsupported_branch :
    parseCutMode ("scene") = .ok CutMode.scene ∧
    convertSegmentToTime ⟨0, 10, CutMode.scene, some ("seg_1")⟩ ⟨60, some 30⟩ =
      .error (.unsupportedMode CutMode.scene) ∧
    runCutSegments ⟨60, some 30⟩ ⟨"out", "video", ".mp4"⟩ false
        [⟨0, 10, CutMode.scene, some ("seg_1")⟩] 0 =
      ([], .error (.segmentError 0 (.unsupportedMode CutMode.scene))) :=
  ⟨by rfl, by rfl, by rfl⟩

/-- Claim C9: a successful run, in either output mode, returns exactly one
resolved interval per input segment, in input order: the k-th interval is
produced by cutting the k-th input segment with loop index k (no sorting,
no deduplication); in non-merge mode the output_paths list likewise carries
exactly the k-th segment's synthesized path at position k. -/
theorem plan_preserves_input_order (segs : List CutSegment) (vi : VideoInfo)
    (base : BasePath) (mg : Bool) (ivs : List (ℚ × ℚ)) (paths : List String)
    (hok : (cutVideoModel segs vi base mg).2 = .ok (ivs, paths)) :
    (ivs.length = segs.length ∧
      ∀ k, (hk : k < segs.length) → ∃ iv po,
        ivs[k]? = some iv ∧
        cutSingleSegment (segs.get ⟨k, hk⟩) vi k base mg = .ok (iv, po)) ∧
    (mg = false →
      paths.length = segs.length ∧
      ∀ k, (hk : k < segs.length) → ∃ iv p,
        ivs[k]? = some iv ∧ paths[k]? = some p ∧
        cutSingleSegment (segs.get ⟨k, hk⟩) vi k base false = .ok (iv, some p)) := by
  unfold cutVideoModel at hok
  by_cases hemp : segs.isEmpty = true
  · rw [if_pos hemp] at hok
    simp at hok
  · rw [if_neg hemp] at hok
    constructor
    · have h := runCutSegments_ok_intervals vi base mg segs 0 ivs paths hok
      refine ⟨h.1, ?_⟩
      intro k hk
      obtain ⟨iv, po, e1, e3⟩ := h.2 k hk
      rw [Nat.zero_add] at e3
      exact ⟨iv, po, e1, e3⟩
    · intro hmg
      subst hmg
      have h := runCutSegments_ok_pointwise vi base segs 0 ivs paths hok
      refine ⟨h.2.1, ?_⟩
      intro k hk
      obtain ⟨iv, p, e1, e2, e3⟩ := h.2.2 k hk
      rw [Nat.zero_add] at e3
      exact ⟨iv, p, e1, e2, e3⟩

/-- Claim C9 witness: the two-segment spec example run in merge mode (where
the intervals are returned and no per-segment file is written),
instantiating the order-preservation theorem at its concrete output. -/
theorem plan_preserves_input_order_witness :
    ([((10 : ℚ), (20 : ℚ)), ((30 : ℚ), (40 : ℚ))]).length =
      ([⟨10, 20, .time, none⟩, ⟨30, 40, .time, none⟩] : List CutSegment).length :=
  (plan_preserves_input_order [⟨10, 20, .time, none⟩, ⟨30, 40, .time, none⟩]
      ⟨60, some 30⟩ ⟨"out", "video", ".mp4"⟩ true [(10, 20), (30, 40)] []
      (by rfl)).1.1

/-- Claim C10: the scene-sampling loop (a total function, defined by
well-founded recursion on the remaining ceiling measure) started at t = 0
executes at most ceil(duration) + 1 iterations; every iteration advances
the sample time by exactly the fixed 1-second interval. -/
theorem scene_loop_iteration_bound {F : Type} (sample : ℚ → Option F)
    (diff : F → F → ℚ) (duration threshold minSceneLength : ℚ) :
    (detectLoop sample diff duration threshold minSceneLength 0 none 0 []).2.2 ≤
      (⌈duration⌉).toNat + 1 := by
  have h := detectLoop_count_le sample diff duration threshold minSceneLength 0 none 0 []
  rw [sub_zero] at h
  omega

end CutVideo
